import Mathlib

/-!
Shallow embedding of the FingerChooser game screen (src/unnamed/part_000).

The component state of GameScreen is modelled by the structure GameState:
the contact registry (fingers), the selecting flag, the winner index and
the color assignment map (fingerColors).  Touch coordinates and visual
quantities are rationals; angles are stored in units of pi, since the
source value (i * 2 * Math.PI) / numDots is the rational coefficient
(i * 2) / numDots times pi.  Timer-driven callbacks of the selection
sequencer are modelled as pure state transformers together with explicit
due-time functions; due times are compared numerically and, at equal due
times, the earlier-registered timer fires first (the cycling interval is
registered before the stop timeout in selectRandomFinger).
-/

/-- One decorative orbiting marker, from the Finger interface (lines 23-27).
The angle field stores the coefficient of pi. -/
structure Dot where
  angle : ℚ
  distance : ℚ
  opacity : ℚ
deriving DecidableEq

/-- One tracked contact, from the Finger interface (lines 15-28).
Animated values are modelled by their numeric value. -/
structure Finger where
  id : String
  x : ℚ
  y : ℚ
  color : ℚ
  scale : ℚ
  rotation : ℚ
  active : Bool
  dots : List Dot
deriving DecidableEq

/-- One platform touch point: identifier plus absolute page coordinates. -/
structure Touch where
  identifier : ℕ
  pageX : ℚ
  pageY : ℚ
deriving DecidableEq

/-- The measured play-surface rectangle (gameAreaDimensions, line 42). -/
structure GameAreaDimensions where
  pageX : ℚ
  pageY : ℚ
  width : ℚ
  height : ℚ
  bottom : ℚ
deriving DecidableEq

/-- The color assignment map (FingerColors, lines 30-32): a JS object keyed
by finger id, modelled as a partial function from keys to colors. -/
abbrev ColorMap := String → Option String

/-- Writing one key of a FingerColors object. -/
def setColor (m : ColorMap) (key value : String) : ColorMap :=
  fun k => if k = key then some value else m k

/-- Object spread merge: apply a list of key-value updates in order
(the shape of setFingerColors(prev => (\x7b ...prev, ...updated \x7d))). -/
def applyUpdates (prev : ColorMap) (updates : List (String × String)) : ColorMap :=
  updates.foldl (fun m kv => setColor m kv.1 kv.2) prev

/-- The empty color object. -/
def emptyColors : ColorMap := fun _ => none

/-- The mutable component state of GameScreen (lines 36-46). -/
structure GameState where
  fingers : List Finger
  selecting : Bool
  winnerIndex : Option ℕ
  fingerColors : ColorMap

/-- generateDots (lines 97-109): numDots = 8. -/
def numDots : ℕ := 8

/-- generateDots (lines 97-109): 8 markers, angle (i * 2 * pi) / numDots
(stored as the coefficient of pi), distance 95, opacity 0.5. -/
def generateDots : List Dot :=
  (List.range numDots).map (fun (i : ℕ) =>
    { angle := ((i : ℚ) * 2) / (numDots : ℚ), distance := 95, opacity := 1/2 })

/-- isTouchInGameArea (lines 171-182). -/
def isTouchInGameArea (d : GameAreaDimensions) (pageX pageY : ℚ) : Bool :=
  let buttonAreaTop := d.bottom - 70
  decide (d.pageX ≤ pageX) && decide (pageX ≤ d.pageX + d.width) &&
    decide (d.pageY ≤ pageY) && decide (pageY ≤ d.bottom) &&
    decide (pageY < buttonAreaTop)

/-- The contact record built for a valid touch in onPanResponderGrant
(lines 210-227): id is the stringified identifier, position the touch
coordinate, color 0, scale 1, rotation 0, active, fresh dots. -/
def mkFinger (t : Touch) : Finger :=
  { id := toString t.identifier
    x := t.pageX
    y := t.pageY
    color := 0
    scale := 1
    rotation := 0
    active := true
    dots := generateDots }

/-- The in-bounds touches of a start batch (lines 203-205). -/
def validTouches (d : GameAreaDimensions) (touches : List Touch) : List Touch :=
  touches.filter (fun t => isTouchInGameArea d t.pageX t.pageY)

/-- onPanResponderGrant (lines 198-234): early return while selecting;
otherwise each valid touch writes idle color for its id into the color
map and becomes a contact record; the registry keeps only previous
contacts that are active and not replaced, then appends the new ones. -/
def onPanResponderGrant (d : GameAreaDimensions) (touches : List Touch)
    (s : GameState) : GameState :=
  if s.selecting then s else
  let valid := validTouches d touches
  let currentTouches := valid.map mkFinger
  let newColors :=
    applyUpdates s.fingerColors (valid.map (fun t => (toString t.identifier, "#00a2ff")))
  let touchIds := currentTouches.map (fun f => f.id)
  let remainingFingers := s.fingers.filter (fun f => !(touchIds.contains f.id) && f.active)
  { s with fingers := remainingFingers ++ currentTouches, fingerColors := newColors }

/-- The per-contact update of onPanResponderMove (lines 241-251): the first
touch whose stringified identifier matches moves the contact when still in
bounds; otherwise the contact is returned unchanged. -/
def moveFinger (d : GameAreaDimensions) (touches : List Touch) (finger : Finger) : Finger :=
  match touches.find? (fun t => toString t.identifier == finger.id) with
  | some t =>
      if isTouchInGameArea d t.pageX t.pageY then
        { finger with x := t.pageX, y := t.pageY }
      else finger
  | none => finger

/-- onPanResponderMove (lines 236-254): does nothing while selecting. -/
def onPanResponderMove (d : GameAreaDimensions) (touches : List Touch)
    (s : GameState) : GameState :=
  if s.selecting then s
  else { s with fingers := s.fingers.map (moveFinger d touches) }

/-- updateFingerColors (lines 265-280): highlight the contact at
currentIndex, idle color for the rest, merged into the previous map. -/
def updateFingerColors (activeFingers : List Finger) (currentIndex : ℕ)
    (prev : ColorMap) : ColorMap :=
  applyUpdates prev
    (activeFingers.enum.map (fun p =>
      (p.2.id, if p.1 = currentIndex then "#ff9500" else "#00a2ff")))

/-- The synchronous part of selectRandomFinger (lines 282-296): the guard
and session start.  Returns the new state and, when a session starts, the
snapshot of active contacts captured for the whole session. -/
def selectRandomFinger (s : GameState) : GameState × Option (List Finger) :=
  let activeFingers := s.fingers.filter (fun f => f.active)
  if activeFingers.length == 0 || s.selecting then (s, none)
  else ({ s with selecting := true, winnerIndex := none }, some activeFingers)

/-- selectionSpeed (line 298). -/
def selectionSpeed : ℕ := 200

/-- numberOfCycles (line 306). -/
def numberOfCycles : ℕ := 3

/-- selectionTime (line 307): activeFingers.length * selectionSpeed * numberOfCycles. -/
def selectionTime (K : ℕ) : ℕ := K * selectionSpeed * numberOfCycles

/-- Due time of the n-th cycling interval tick (interval period 200, line 304). -/
def cycleTickTime (n : ℕ) : ℕ := n * selectionSpeed

/-- Whether the n-th cycling tick fires during a session over K contacts:
ticks are due every selectionSpeed units and fire while due no later than
the stop timeout at selectionTime K; at the equal due time the interval,
registered first, fires before the timeout. -/
def cycleTickFires (K n : ℕ) : Prop :=
  1 ≤ n ∧ cycleTickTime n ≤ selectionTime K

/-- currentIndex after n ticks (line 302): starts at 0, each tick applies
(i + 1) % K. -/
def currentIndexAfter (K n : ℕ) : ℕ := n % K

/-- The winner draw (line 312): Math.floor(Math.random() * length) with
u the value of Math.random(). -/
def floorDraw (u : ℚ) (K : ℕ) : ℕ := (⌊u * K⌋).toNat

/-- The outcome callback body (lines 309-342) minus timer bookkeeping:
set the winner index, recolor the snapshot (winner color at randomIndex,
idle elsewhere) into the map, and emit the winner sound cue. -/
def computeOutcome (activeFingers : List Finger) (randomIndex : ℕ)
    (s : GameState) : GameState × List String :=
  let updatedColors := activeFingers.enum.map (fun p =>
    (p.2.id, if p.1 = randomIndex then "#ff2d55" else "#00a2ff"))
  ({ s with winnerIndex := some randomIndex
            fingerColors := applyUpdates s.fingerColors updatedColors },
   ["winner"])

/-- Due time of the m-th blink tick after the outcome (period 300, line 356). -/
def blinkTickTime (m : ℕ) : ℕ := m * 300

/-- The state of the blink interval (lines 344-356): the blinkCount
counter, the color map it mutates, and whether clearInterval has run. -/
structure BlinkState where
  blinkCount : ℕ
  colors : ColorMap
  stopped : Bool

/-- One firing of the blink interval callback (lines 345-356): once the
interval is cleared nothing happens; otherwise increment blinkCount,
recolor the winner by parity, and stop after the 6th tick. -/
def blinkTick (winnerId : String) (b : BlinkState) : BlinkState :=
  if b.stopped then b else
  let c := b.blinkCount + 1
  { blinkCount := c
    colors := setColor b.colors winnerId (if c % 2 = 0 then "#ff2d55" else "#ff0055")
    stopped := decide (6 ≤ c) }

/-- n firings of the blink interval callback. -/
def blinkRun (winnerId : String) (n : ℕ) (b : BlinkState) : BlinkState :=
  match n with
  | 0 => b
  | Nat.succ m => blinkTick winnerId (blinkRun winnerId m b)

/-- Delay of the session-end timeout (line 360). -/
def sessionEndDelay : ℕ := 2000

/-- The outcome timeout fires at selectionTime K (line 361). -/
def outcomeTime (K : ℕ) : ℕ := selectionTime K

/-- The session-end timeout is registered in the outcome callback with
delay 2000 (lines 358-360). -/
def sessionEndTime (K : ℕ) : ℕ := outcomeTime K + sessionEndDelay

/-- The session-end timeout body (lines 358-360): clear the selecting flag. -/
def sessionEnd (s : GameState) : GameState := { s with selecting := false }

/-- handleRestart (lines 364-369): empty registry, not selecting, no
winner, empty color map. -/
def handleRestart : GameState :=
  { fingers := [], selecting := false, winnerIndex := none, fingerColors := fun _ => none }

/-- The initial component state (lines 36-46). -/
def initialState : GameState :=
  { fingers := [], selecting := false, winnerIndex := none, fingerColors := fun _ => none }

/-- getBorderColor (lines 375-380). -/
def getBorderColor (colors : ColorMap) (fingerId : String) : String :=
  if colors fingerId = some "#ff2d55" ∨ colors fingerId = some "#ff0055"
  then "#ffcc00" else "white"

/-- The state-mutating operations of the screen, for invariant reasoning. -/
inductive GameOp where
  | grant (d : GameAreaDimensions) (touches : List Touch)
  | move (d : GameAreaDimensions) (touches : List Touch)
  | pick
  | outcome (snapshot : List Finger) (randomIndex : ℕ)
  | blink (winnerId : String) (c : ℕ)
  | finishSession
  | restart

/-- Applying one operation to the component state. -/
def applyOp (op : GameOp) (s : GameState) : GameState :=
  match op with
  | .grant d touches => onPanResponderGrant d touches s
  | .move d touches => onPanResponderMove d touches s
  | .pick => (selectRandomFinger s).1
  | .outcome snap r => (computeOutcome snap r s).1
  | .blink w c =>
      { s with fingerColors :=
          setColor s.fingerColors w (if c % 2 = 0 then "#ff2d55" else "#ff0055") }
  | .finishSession => sessionEnd s
  | .restart => handleRestart

/-- Running a sequence of operations from the initial state. -/
def runOps (ops : List GameOp) : GameState :=
  ops.foldl (fun s op => applyOp op s) initialState

/-! ### Concrete sample values -/

/-- A sample measured play surface: a 400 x 700 rectangle at the origin. -/
def sampleDims : GameAreaDimensions := ⟨0, 0, 400, 700, 700⟩

/-- A sample in-bounds touch with identifier 0. -/
def sampleTouchA : Touch := ⟨0, 50, 50⟩

/-- A sample in-bounds touch with identifier 1. -/
def sampleTouchB : Touch := ⟨1, 200, 200⟩

/-- A sample in-bounds touch with identifier 7. -/
def sampleTouchIn : Touch := ⟨7, 100, 100⟩

/-- A sample touch inside the reserved control strip (y = 680 is past
the strip boundary 700 - 70 = 630), hence out of bounds. -/
def sampleTouchOut : Touch := ⟨9, 100, 680⟩

/-- A later position of the touch with identifier 7, still in bounds. -/
def sampleMovedTouch : Touch := ⟨7, 150, 150⟩

/-- The contact created by sampleTouchA. -/
def sampleFingerA : Finger := mkFinger sampleTouchA

/-- The contact created by sampleTouchB. -/
def sampleFingerB : Finger := mkFinger sampleTouchB

/-- A sample two-contact snapshot. -/
def sampleSnapshot : List Finger := [sampleFingerA, sampleFingerB]

/-- A state with one active contact in the middle of a selection session. -/
def busyState : GameState :=
  { fingers := [sampleFingerA], selecting := true, winnerIndex := none
    fingerColors := emptyColors }

/-- An idle state holding the contact created by sampleTouchIn. -/
def moveStartState : GameState :=
  { fingers := [mkFinger sampleTouchIn], selecting := false, winnerIndex := none
    fingerColors := emptyColors }

/-- An idle state in which identifier 7 is still colored as the winner. -/
def formerWinnerState : GameState :=
  { fingers := [], selecting := false, winnerIndex := some 0
    fingerColors := setColor emptyColors "7" "#ff2d55" }

/-- A mid-session state: a session is running over the contact with
identifier 1, and identifier 0 is not registered. -/
def midSessionState : GameState :=
  { fingers := [sampleFingerB], selecting := true, winnerIndex := none
    fingerColors := emptyColors }

/-- A mid-session state in which identifier 0 still carries the winner
color from a previous session. -/
def midSessionWinnerState : GameState :=
  { fingers := [sampleFingerB], selecting := true, winnerIndex := some 0
    fingerColors := setColor emptyColors "0" "#ff2d55" }

/-! ### Helper lemmas -/

theorem setColor_same (m : ColorMap) (k v : String) : setColor m k v k = some v := by
  simp [setColor]

theorem setColor_other (m : ColorMap) (k v k2 : String) (h : k2 ≠ k) :
    setColor m k v k2 = m k2 := by
  simp [setColor, h]

theorem applyUpdates_cons (prev : ColorMap) (a : String × String)
    (rest : List (String × String)) :
    applyUpdates prev (a :: rest) = applyUpdates (setColor prev a.1 a.2) rest := rfl

theorem applyUpdates_not_mem (updates : List (String × String)) (prev : ColorMap)
    (k : String) (h : k ∉ updates.map Prod.fst) : applyUpdates prev updates k = prev k := by
  induction updates generalizing prev with
  | nil => rfl
  | cons a rest ih =>
    simp only [List.map_cons, List.mem_cons, not_or] at h
    rw [applyUpdates_cons, ih _ h.2, setColor_other _ _ _ _ h.1]

theorem applyUpdates_mem (updates : List (String × String)) (prev : ColorMap)
    (k v : String) (hnd : (updates.map Prod.fst).Nodup) (hm : (k, v) ∈ updates) :
    applyUpdates prev updates k = some v := by
  induction updates generalizing prev with
  | nil => cases hm
  | cons a rest ih =>
    simp only [List.map_cons, List.nodup_cons] at hnd
    rw [applyUpdates_cons]
    rcases List.mem_cons.mp hm with heq | hr
    · have hk : k ∉ rest.map Prod.fst := by
        rw [show k = a.1 by rw [← heq]]
        exact hnd.1
      rw [applyUpdates_not_mem _ _ _ hk, show a.1 = k by rw [← heq],
        show a.2 = v by rw [← heq]]
      exact setColor_same _ _ _
    · exact ih _ hnd.2 hr

theorem applyUpdates_enum_get (l : List Finger) (ci : ℕ) (prev : ColorMap)
    (hiCol loCol : String) (hnd : (l.map Finger.id).Nodup) (i : ℕ) (hi : i < l.length) :
    applyUpdates prev
        (l.enum.map (fun p => (p.2.id, if p.1 = ci then hiCol else loCol)))
        ((l.get ⟨i, hi⟩).id)
      = some (if i = ci then hiCol else loCol) := by
  apply applyUpdates_mem
  · rw [List.map_map]
    have h2 : (Prod.fst ∘ fun p : ℕ × Finger =>
        (p.2.id, if p.1 = ci then hiCol else loCol)) = (Finger.id ∘ Prod.snd) := rfl
    rw [h2, ← List.map_map, List.enum_map_snd]
    exact hnd
  · have hl : i < l.enum.length := by simpa [List.enum_length] using hi
    have hmem : (i, l.get ⟨i, hi⟩) ∈ l.enum := by
      have hgm := List.getElem_mem hl
      rw [List.getElem_enum l i hl] at hgm
      simpa [List.get_eq_getElem] using hgm
    exact List.mem_map_of_mem _ hmem

theorem blinkTick_stopped (w : String) (b : BlinkState) (h : b.stopped = true) :
    blinkTick w b = b := by
  simp [blinkTick, h]

theorem blinkRun_le_six (w : String) (m : ColorMap) :
    ∀ n, n ≤ 6 →
      (blinkRun w n ⟨0, m, false⟩).blinkCount = n ∧
      (blinkRun w n ⟨0, m, false⟩).stopped = decide (6 ≤ n) ∧
      (1 ≤ n → (blinkRun w n ⟨0, m, false⟩).colors w
          = some (if n % 2 = 0 then "#ff2d55" else "#ff0055")) ∧
      (∀ k, k ≠ w → (blinkRun w n ⟨0, m, false⟩).colors k = m k) := by
  intro n
  induction n with
  | zero =>
    intro _
    exact ⟨rfl, rfl, by omega, fun k _ => rfl⟩
  | succ p ih =>
    intro h6
    obtain ⟨hc, hs, _hcols, hothers⟩ := ih (by omega)
    have hns : (blinkRun w p ⟨0, m, false⟩).stopped = false := by
      rw [hs]
      simpa using by omega
    have hrun : blinkRun w (p + 1) ⟨0, m, false⟩
        = blinkTick w (blinkRun w p ⟨0, m, false⟩) := rfl
    have htick : blinkTick w (blinkRun w p ⟨0, m, false⟩) =
        { blinkCount := (blinkRun w p ⟨0, m, false⟩).blinkCount + 1
          colors := setColor (blinkRun w p ⟨0, m, false⟩).colors w
            (if ((blinkRun w p ⟨0, m, false⟩).blinkCount + 1) % 2 = 0
             then "#ff2d55" else "#ff0055")
          stopped := decide (6 ≤ (blinkRun w p ⟨0, m, false⟩).blinkCount + 1) } := by
      rw [blinkTick, hns]
      simp
    rw [hrun, htick, hc]
    exact ⟨rfl, rfl, fun _ => setColor_same _ _ _,
      fun k hk => (setColor_other _ _ _ _ hk).trans (hothers k hk)⟩

theorem blinkRun_absorb (w : String) (m : ColorMap) :
    ∀ n, blinkRun w (6 + n) ⟨0, m, false⟩ = blinkRun w 6 ⟨0, m, false⟩ := by
  intro n
  induction n with
  | zero => rfl
  | succ p ih =>
    have hstep : blinkRun w (6 + (p + 1)) ⟨0, m, false⟩
        = blinkTick w (blinkRun w (6 + p) ⟨0, m, false⟩) := rfl
    rw [hstep, ih, blinkTick_stopped]
    exact ((blinkRun_le_six w m 6 (by omega)).2.1).trans (by decide)

theorem floorDraw_lt (u : ℚ) (K : ℕ) (h0 : 0 ≤ u) (h1 : u < 1) (hK : 0 < K) :
    floorDraw u K < K := by
  have hKQ : (0 : ℚ) < K := by exact_mod_cast hK
  have hub : u * K < K := by
    calc u * K < 1 * K := mul_lt_mul_of_pos_right h1 hKQ
    _ = K := one_mul _
  have hfl : ⌊u * K⌋ < (K : ℤ) := Int.floor_lt.mpr (by exact_mod_cast hub)
  have hnn : 0 ≤ ⌊u * K⌋ := Int.floor_nonneg.mpr (mul_nonneg h0 (le_of_lt hKQ))
  unfold floorDraw
  omega

theorem floorDraw_eq_iff (u : ℚ) (K j : ℕ) (h0 : 0 ≤ u) (hK : 0 < K) :
    floorDraw u K = j ↔ ((j : ℚ) / K ≤ u ∧ u < ((j : ℚ) + 1) / K) := by
  have hKQ : (0 : ℚ) < K := by exact_mod_cast hK
  have hnn : 0 ≤ ⌊u * K⌋ := Int.floor_nonneg.mpr (mul_nonneg h0 (le_of_lt hKQ))
  have h1 : floorDraw u K = j ↔ ⌊u * K⌋ = (j : ℤ) := by
    unfold floorDraw
    omega
  rw [h1, Int.floor_eq_iff]
  constructor
  · rintro ⟨ha, hb⟩
    refine ⟨?_, ?_⟩
    · rw [div_le_iff₀ hKQ]
      exact_mod_cast ha
    · rw [lt_div_iff₀ hKQ]
      push_cast at hb ⊢
      linarith
  · rintro ⟨ha, hb⟩
    refine ⟨?_, ?_⟩
    · rw [div_le_iff₀ hKQ] at ha
      push_cast
      linarith
    · rw [lt_div_iff₀ hKQ] at hb
      push_cast
      linarith

theorem moveFinger_active (d : GameAreaDimensions) (touches : List Touch) (f : Finger) :
    (moveFinger d touches f).active = f.active := by
  unfold moveFinger
  cases touches.find? (fun t => toString t.identifier == f.id) with
  | none => rfl
  | some t =>
    by_cases hb : isTouchInGameArea d t.pageX t.pageY
    · simp [hb]
    · simp [hb]

theorem selectRandomFinger_fst_fingers (s : GameState) :
    (selectRandomFinger s).1.fingers = s.fingers := by
  unfold selectRandomFinger
  by_cases h : ((s.fingers.filter (fun f => f.active)).length == 0 || s.selecting : Bool)
  · simp [h]
  · simp [h]

theorem applyOp_preserves_active (op : GameOp) (s : GameState)
    (h : ∀ f ∈ s.fingers, f.active = true) :
    ∀ f ∈ (applyOp op s).fingers, f.active = true := by
  cases op with
  | grant d touches =>
    intro f hf
    have hf2 : f ∈ (onPanResponderGrant d touches s).fingers := hf
    unfold onPanResponderGrant at hf2
    by_cases hsel : s.selecting = true
    · rw [if_pos hsel] at hf2
      exact h f hf2
    · rw [if_neg hsel] at hf2
      simp only [List.mem_append, List.mem_filter, List.mem_map] at hf2
      rcases hf2 with ⟨hmem, _⟩ | ⟨t, _, rfl⟩
      · exact h f hmem
      · rfl
  | move d touches =>
    intro f hf
    have hf2 : f ∈ (onPanResponderMove d touches s).fingers := hf
    unfold onPanResponderMove at hf2
    by_cases hsel : s.selecting = true
    · rw [if_pos hsel] at hf2
      exact h f hf2
    · rw [if_neg hsel] at hf2
      simp only [List.mem_map] at hf2
      obtain ⟨g, hg, rfl⟩ := hf2
      rw [moveFinger_active]
      exact h g hg
  | pick =>
    intro f hf
    rw [show (applyOp GameOp.pick s).fingers = (selectRandomFinger s).1.fingers from rfl,
      selectRandomFinger_fst_fingers] at hf
    exact h f hf
  | outcome snap r => exact h
  | blink w c => exact h
  | finishSession => exact h
  | restart =>
    intro f hf
    simp [applyOp, handleRestart] at hf

theorem foldl_applyOp_preserves_active (ops : List GameOp) :
    ∀ s : GameState, (∀ f ∈ s.fingers, f.active = true) →
      ∀ f ∈ (ops.foldl (fun s op => applyOp op s) s).fingers, f.active = true := by
  induction ops with
  | nil => exact fun s h => h
  | cons op rest ih =>
    intro s h
    exact ih _ (applyOp_preserves_active op s h)

/-! ### Claim theorems -/

/-- Claim C4: invoking Pick Finger with zero active contacts or while a
session is in progress is a silent no-op returning the state unchanged and
starting no session; and when a first invocation does start a session, a
second invocation mid-session leaves the first session's state unchanged
and starts no second session, so exactly one session runs. -/
theorem pick_precondition_noop (s : GameState) :
    ((s.fingers.filter (fun f => f.active)).length = 0 ∨ s.selecting = true →
        selectRandomFinger s = (s, none)) ∧
    (∀ s1 snap, selectRandomFinger s = (s1, some snap) →
        s1.selecting = true ∧ selectRandomFinger s1 = (s1, none) ∧
        s1.fingers = s.fingers ∧ s1.fingerColors = s.fingerColors ∧
        snap = s.fingers.filter (fun f => f.active)) := by
  constructor
  · intro h
    unfold selectRandomFinger
    rcases h with h | h
    · simp [h]
    · simp [h]
  · intro s1 snap hcall
    unfold selectRandomFinger at hcall
    by_cases hc : (((s.fingers.filter (fun f => f.active)).length == 0
        || s.selecting) : Bool)
    · rw [if_pos hc] at hcall
      exact absurd (congrArg Prod.snd hcall) (by simp)
    · rw [if_neg hc] at hcall
      have ha : ({ s with selecting := true, winnerIndex := none } : GameState) = s1 :=
        congrArg Prod.fst hcall
      have hb : some (s.fingers.filter (fun f => f.active)) = some snap :=
        congrArg Prod.snd hcall
      obtain rfl := ha.symm
      refine ⟨rfl, ?_, rfl, rfl, (Option.some.inj hb).symm⟩
      unfold selectRandomFinger
      simp

/-- Claim C5: Reset unconditionally empties the registry and the color
map, clears the winner index and clears the selecting flag. -/
theorem restart_clears_everything (s : GameState) :
    applyOp GameOp.restart s = handleRestart ∧
    handleRestart.fingers = [] ∧
    handleRestart.fingerColors = emptyColors ∧
    (∀ k, handleRestart.fingerColors k = none) ∧
    handleRestart.winnerIndex = none ∧
    handleRestart.selecting = false :=
  ⟨rfl, rfl, rfl, fun _ => rfl, rfl, rfl⟩

/-- Claim C6: the session-end timeout fires exactly 2000 time units after
the outcome is computed and clears only the selecting flag: the winner
index (and the rest of the state) is untouched, and it is Reset that
clears the winner index. -/
theorem session_end_timing (s : GameState) (K : ℕ) :
    sessionEndTime K = outcomeTime K + 2000 ∧
    sessionEndDelay = 2000 ∧
    (sessionEnd s).selecting = false ∧
    (sessionEnd s).winnerIndex = s.winnerIndex ∧
    (sessionEnd s).fingers = s.fingers ∧
    (sessionEnd s).fingerColors = s.fingerColors ∧
    handleRestart.winnerIndex = none :=
  ⟨rfl, rfl, rfl, rfl, rfl, rfl, rfl⟩

/-- Claim C9: after any sequence of operations from the initial state
every registry contact has its active flag true (creation sets it true and
no operation clears it), so filtering the registry by the active flag
yields the whole registry. -/
theorem active_flag_invariant (ops : List GameOp) :
    (∀ f ∈ (runOps ops).fingers, f.active = true) ∧
    (runOps ops).fingers.filter (fun f => f.active) = (runOps ops).fingers ∧
    (∀ t : Touch, (mkFinger t).active = true) := by
  have hall := foldl_applyOp_preserves_active ops initialState (by intro f hf; cases hf)
  refine ⟨hall, ?_, fun _ => rfl⟩
  rw [List.filter_eq_self]
  simpa using hall

/-- Witness for C4 at a concrete mid-session state. -/
theorem pick_precondition_noop_witness :
    ((busyState.fingers.filter (fun f => f.active)).length = 0 ∨
        busyState.selecting = true) ∧
    selectRandomFinger busyState = (busyState, none) :=
  ⟨Or.inr rfl, (pick_precondition_noop busyState).1 (Or.inr rfl)⟩

/-- Claim C7: the blink timer ticks at a fixed period of 300 time units;
each of ticks 1..6 recolors exactly the winner's entry, alternating
between the two winner-color variants by parity of the tick count; the
timer has not stopped before tick 6, stops itself at tick 6, a 7th or
later firing changes nothing, and no key other than the winner's is ever
recolored. -/
theorem blink_phase_spec (winnerId : String) (m : ColorMap) :
    (∀ n : ℕ, blinkTickTime (n + 1) - blinkTickTime n = 300) ∧
    (∀ n, 1 ≤ n → n ≤ 6 →
        (blinkRun winnerId n ⟨0, m, false⟩).colors winnerId
            = some (if n % 2 = 0 then "#ff2d55" else "#ff0055") ∧
        (blinkRun winnerId n ⟨0, m, false⟩).blinkCount = n) ∧
    (∀ n, n ≤ 5 → (blinkRun winnerId n ⟨0, m, false⟩).stopped = false) ∧
    (blinkRun winnerId 6 ⟨0, m, false⟩).stopped = true ∧
    (∀ n, blinkRun winnerId (6 + n) ⟨0, m, false⟩ = blinkRun winnerId 6 ⟨0, m, false⟩) ∧
    (∀ n k, k ≠ winnerId → (blinkRun winnerId n ⟨0, m, false⟩).colors k = m k) := by
  refine ⟨?_, ?_, ?_, ?_, blinkRun_absorb winnerId m, ?_⟩
  · intro n
    unfold blinkTickTime
    omega
  · intro n hn1 hn6
    obtain ⟨hc, _, hcol, _⟩ := blinkRun_le_six winnerId m n hn6
    exact ⟨hcol hn1, hc⟩
  · intro n hn5
    rw [(blinkRun_le_six winnerId m n (by omega)).2.1]
    simpa using by omega
  · rw [(blinkRun_le_six winnerId m 6 (by omega)).2.1]
    rfl
  · intro n k hk
    by_cases h6 : n ≤ 6
    · exact (blinkRun_le_six winnerId m n h6).2.2.2 k hk
    · have heq : n = 6 + (n - 6) := by omega
      rw [heq, blinkRun_absorb]
      exact (blinkRun_le_six winnerId m 6 (by omega)).2.2.2 k hk

/-- Witness for C7: the third blink tick shows the odd-parity variant. -/
theorem blink_phase_witness :
    (1 ≤ 3 ∧ 3 ≤ 6) ∧
    (blinkRun "7" 3 ⟨0, emptyColors, false⟩).colors "7" = some "#ff0055" := by
  have h := ((blink_phase_spec "7" emptyColors).2.1 3 (by omega) (by omega)).1
  exact ⟨⟨by omega, by omega⟩, by simpa using h⟩

/-- Claim C8: while a session is active a move event changes nothing;
otherwise only the fingers list changes, pointwise by moveFinger: a
contact whose matching touch is still in bounds gets exactly its
coordinate updated, a matching out-of-bounds touch leaves the contact
frozen, and a contact with no matching touch is unchanged. -/
theorem move_handler_spec (d : GameAreaDimensions) (touches : List Touch) (s : GameState) :
    (s.selecting = true → onPanResponderMove d touches s = s) ∧
    (s.selecting = false →
      (onPanResponderMove d touches s).fingers = s.fingers.map (moveFinger d touches) ∧
      (onPanResponderMove d touches s).selecting = s.selecting ∧
      (onPanResponderMove d touches s).winnerIndex = s.winnerIndex ∧
      (onPanResponderMove d touches s).fingerColors = s.fingerColors) ∧
    (∀ f : Finger, ∀ t : Touch,
        touches.find? (fun t2 => toString t2.identifier == f.id) = some t →
        (isTouchInGameArea d t.pageX t.pageY = true →
            moveFinger d touches f = { f with x := t.pageX, y := t.pageY }) ∧
        (isTouchInGameArea d t.pageX t.pageY = false →
            moveFinger d touches f = f)) ∧
    (∀ f : Finger,
        touches.find? (fun t2 => toString t2.identifier == f.id) = none →
        moveFinger d touches f = f) := by
  refine ⟨?_, ?_, ?_, ?_⟩
  · intro h
    unfold onPanResponderMove
    rw [if_pos h]
  · intro h
    unfold onPanResponderMove
    rw [if_neg (by simp [h])]
    exact ⟨rfl, rfl, rfl, rfl⟩
  · intro f t hfind
    constructor
    · intro hin
      simp [moveFinger, hfind, hin]
    · intro hout
      simp [moveFinger, hfind, hout]
  · intro f hfind
    simp [moveFinger, hfind]

/-- Witness for C8: a concrete in-bounds move updates only the coordinate. -/
theorem move_handler_witness :
    moveStartState.selecting = false ∧
    [sampleMovedTouch].find?
        (fun t2 => toString t2.identifier == (mkFinger sampleTouchIn).id)
      = some sampleMovedTouch ∧
    isTouchInGameArea sampleDims sampleMovedTouch.pageX sampleMovedTouch.pageY = true ∧
    moveFinger sampleDims [sampleMovedTouch] (mkFinger sampleTouchIn)
      = { mkFinger sampleTouchIn with x := 150, y := 150 } := by
  have hin : isTouchInGameArea sampleDims sampleMovedTouch.pageX sampleMovedTouch.pageY
      = true := by
    norm_num [isTouchInGameArea, sampleDims, sampleMovedTouch]
  have h := ((move_handler_spec sampleDims [sampleMovedTouch] moveStartState).2.2.1
      (mkFinger sampleTouchIn) sampleMovedTouch (by decide)).1 hin
  exact ⟨rfl, by decide, hin, by simpa using h⟩

/-- Claim C1: when the cycling phase ends the winner index is
Math.floor(u * K) for the uniform sample u, which lies in [0, K) and hits
each index j exactly on the equal-length subinterval [j/K, (j+1)/K) of
[0,1), so the draw is uniform over the snapshot; the snapshot entry at
that index becomes the winner, its color-map entry is set to the winner
color while every other snapshot entry gets the idle color, and the
winner sound cue is emitted; for a snapshot of size 1 the index is 0. -/
theorem selection_outcome_uniform (snapshot : List Finger) (u : ℚ) (s : GameState)
    (h0 : 0 ≤ u) (h1 : u < 1) (hK : 0 < snapshot.length)
    (hnd : (snapshot.map Finger.id).Nodup) :
    floorDraw u snapshot.length < snapshot.length ∧
    (∀ j, j < snapshot.length →
        (floorDraw u snapshot.length = j ↔
          ((j : ℚ) / snapshot.length ≤ u ∧ u < ((j : ℚ) + 1) / snapshot.length))) ∧
    (snapshot.length = 1 → floorDraw u snapshot.length = 0) ∧
    (computeOutcome snapshot (floorDraw u snapshot.length) s).1.winnerIndex
        = some (floorDraw u snapshot.length) ∧
    (∀ i (hi : i < snapshot.length),
        (computeOutcome snapshot (floorDraw u snapshot.length) s).1.fingerColors
            ((snapshot.get ⟨i, hi⟩).id)
          = some (if i = floorDraw u snapshot.length then "#ff2d55" else "#00a2ff")) ∧
    (computeOutcome snapshot (floorDraw u snapshot.length) s).2 = ["winner"] := by
  refine ⟨floorDraw_lt u _ h0 h1 hK, fun j _ => floorDraw_eq_iff u _ j h0 hK, ?_, rfl, ?_, rfl⟩
  · intro hone
    have := floorDraw_lt u snapshot.length h0 h1 hK
    omega
  · intro i hi
    exact applyUpdates_enum_get snapshot _ s.fingerColors "#ff2d55" "#00a2ff" hnd i hi

/-- Witness for C1 at a concrete two-contact snapshot and u = 2/3. -/
theorem selection_outcome_uniform_witness :
    (0 ≤ (2/3 : ℚ)) ∧ ((2/3 : ℚ) < 1) ∧ 0 < sampleSnapshot.length ∧
    (sampleSnapshot.map Finger.id).Nodup ∧
    (computeOutcome sampleSnapshot (floorDraw (2/3 : ℚ) sampleSnapshot.length)
        initialState).1.winnerIndex
      = some (floorDraw (2/3 : ℚ) sampleSnapshot.length) := by
  have h := selection_outcome_uniform sampleSnapshot (2/3) initialState
    (by norm_num) (by norm_num) (by decide) (by decide)
  exact ⟨by norm_num, by norm_num, by decide, by decide, h.2.2.2.1⟩

/-- Claim C3: the cycling phase ticks at a constant interval of 200 time
units, the total cycling duration is K * 200 * 3, exactly the ticks
1..3K fire before the timer stops, each of the K snapshot indices is the
current index on at least 3 firing ticks, and on each tick the contact at
the current index is recolored to the highlight color and every other
snapshot contact to the idle color. -/
theorem cycling_phase_spec (snapshot : List Finger) (prev : ColorMap)
    (hK : 0 < snapshot.length) (hnd : (snapshot.map Finger.id).Nodup) :
    selectionTime snapshot.length = snapshot.length * 200 * 3 ∧
    (∀ n : ℕ, cycleTickTime (n + 1) - cycleTickTime n = 200) ∧
    (∀ n : ℕ, cycleTickFires snapshot.length n ↔ (1 ≤ n ∧ n ≤ 3 * snapshot.length)) ∧
    (∀ j, j < snapshot.length → ∃ n1 n2 n3 : ℕ,
        n1 < n2 ∧ n2 < n3 ∧
        cycleTickFires snapshot.length n1 ∧ cycleTickFires snapshot.length n2 ∧
        cycleTickFires snapshot.length n3 ∧
        currentIndexAfter snapshot.length n1 = j ∧
        currentIndexAfter snapshot.length n2 = j ∧
        currentIndexAfter snapshot.length n3 = j) ∧
    (∀ n : ℕ, ∀ i (hi : i < snapshot.length),
        updateFingerColors snapshot (currentIndexAfter snapshot.length n) prev
            ((snapshot.get ⟨i, hi⟩).id)
          = some (if i = currentIndexAfter snapshot.length n
                  then "#ff9500" else "#00a2ff")) := by
  refine ⟨?_, ?_, ?_, ?_, ?_⟩
  · unfold selectionTime selectionSpeed numberOfCycles
    rfl
  · intro n
    unfold cycleTickTime selectionSpeed
    omega
  · intro n
    unfold cycleTickFires cycleTickTime selectionTime selectionSpeed numberOfCycles
    omega
  · intro j hj
    by_cases hj0 : j = 0
    · subst hj0
      refine ⟨snapshot.length, 2 * snapshot.length, 3 * snapshot.length,
        by omega, by omega, ?_, ?_, ?_, ?_, ?_, ?_⟩
      · unfold cycleTickFires cycleTickTime selectionTime selectionSpeed numberOfCycles
        omega
      · unfold cycleTickFires cycleTickTime selectionTime selectionSpeed numberOfCycles
        omega
      · unfold cycleTickFires cycleTickTime selectionTime selectionSpeed numberOfCycles
        omega
      · unfold currentIndexAfter
        exact Nat.mod_self _
      · unfold currentIndexAfter
        exact Nat.mul_mod_left 2 _
      · unfold currentIndexAfter
        exact Nat.mul_mod_left 3 _
    · refine ⟨j, j + snapshot.length, j + 2 * snapshot.length,
        by omega, by omega, ?_, ?_, ?_, ?_, ?_, ?_⟩
      · unfold cycleTickFires cycleTickTime selectionTime selectionSpeed numberOfCycles
        omega
      · unfold cycleTickFires cycleTickTime selectionTime selectionSpeed numberOfCycles
        omega
      · unfold cycleTickFires cycleTickTime selectionTime selectionSpeed numberOfCycles
        omega
      · unfold currentIndexAfter
        exact Nat.mod_eq_of_lt hj
      · unfold currentIndexAfter
        rw [Nat.add_mod_right]
        exact Nat.mod_eq_of_lt hj
      · unfold currentIndexAfter
        rw [Nat.add_mul_mod_self_right]
        exact Nat.mod_eq_of_lt hj
  · intro n i hi
    exact applyUpdates_enum_get snapshot _ prev "#ff9500" "#00a2ff" hnd i hi

/-- Witness for C3 at a concrete two-contact snapshot. -/
theorem cycling_phase_witness :
    0 < sampleSnapshot.length ∧ (sampleSnapshot.map Finger.id).Nodup ∧
    selectionTime sampleSnapshot.length = sampleSnapshot.length * 200 * 3 := by
  have h := cycling_phase_spec sampleSnapshot emptyColors (by decide) (by decide)
  exact ⟨by decide, by decide, h.1⟩

/-- Claim C2 (amended: the start handler ignores batches delivered while
a selection session is active): a start batch while not selecting rebuilds the registry
from the previous active, non-replaced contacts plus one fresh contact per
in-bounds touch; each fresh contact starts at its touch coordinate with
scale 1, rotation 0 and 8 markers at constant radius 95 whose angles are
equally spaced 2 pi / 8 apart; from an empty registry exactly the
in-bounds touches are registered; and an out-of-bounds touch never
creates an entry. -/
theorem grant_registry_spec (d : GameAreaDimensions) (touches : List Touch)
    (s : GameState) (hsel : s.selecting = false) :
    (onPanResponderGrant d touches s).fingers
        = s.fingers.filter (fun f =>
            !((((validTouches d touches).map mkFinger).map (fun f2 => f2.id)).contains f.id)
              && f.active)
          ++ (validTouches d touches).map mkFinger ∧
    (∀ t : Touch, mkFinger t =
        { id := toString t.identifier, x := t.pageX, y := t.pageY, color := 0,
          scale := 1, rotation := 0, active := true, dots := generateDots }) ∧
    generateDots.length = 8 ∧
    (∀ i (hi : i < generateDots.length),
        (generateDots.get ⟨i, hi⟩).angle = ((i : ℚ) * 2) / 8 ∧
        (generateDots.get ⟨i, hi⟩).distance = 95) ∧
    (∀ i (hi : i + 1 < generateDots.length),
        (generateDots.get ⟨i + 1, hi⟩).angle
          - (generateDots.get ⟨i, by omega⟩).angle = 2 / 8) ∧
    (s.fingers = [] →
        (onPanResponderGrant d touches s).fingers = (validTouches d touches).map mkFinger ∧
        (onPanResponderGrant d touches s).fingers.length
          = (validTouches d touches).length) ∧
    (∀ t ∈ touches,
        (touches.map (fun t2 => toString t2.identifier)).Nodup →
        isTouchInGameArea d t.pageX t.pageY = false →
        (mkFinger t).id ∉ s.fingers.map Finger.id →
        (mkFinger t).id ∉ (onPanResponderGrant d touches s).fingers.map Finger.id) := by
  have hmain : (onPanResponderGrant d touches s).fingers
      = s.fingers.filter (fun f =>
          !((((validTouches d touches).map mkFinger).map (fun f2 => f2.id)).contains f.id)
            && f.active)
        ++ (validTouches d touches).map mkFinger := by
    unfold onPanResponderGrant
    rw [if_neg (by simp [hsel])]
  refine ⟨hmain, fun _ => rfl, rfl, ?_, ?_, ?_, ?_⟩
  · intro i hi
    unfold generateDots at hi ⊢
    rw [List.get_eq_getElem, List.getElem_map, List.getElem_range]
    refine ⟨?_, rfl⟩
    norm_num [numDots]
  · intro i hi
    unfold generateDots at hi ⊢
    rw [List.get_eq_getElem, List.get_eq_getElem, List.getElem_map, List.getElem_map,
      List.getElem_range, List.getElem_range]
    show ((((i : ℕ) + 1 : ℕ) : ℚ) * 2) / (numDots : ℚ) - ((i : ℚ) * 2) / (numDots : ℚ) = 2 / 8
    norm_num [numDots]
    ring
  · intro he
    constructor
    · rw [hmain, he]
      simp
    · rw [hmain, he]
      simp
  · intro t ht hndids hout hfresh hmem
    rw [hmain, List.map_append] at hmem
    rcases List.mem_append.mp hmem with hL | hR
    · obtain ⟨f, hf, hfid⟩ := List.mem_map.mp hL
      exact hfresh (hfid ▸ List.mem_map_of_mem Finger.id (List.mem_of_mem_filter hf))
    · simp only [List.map_map, List.mem_map] at hR
      obtain ⟨t2, ht2, hid⟩ := hR
      have ht2touches : t2 ∈ touches := List.mem_of_mem_filter ht2
      have ht2t : t2 = t := List.inj_on_of_nodup_map hndids ht2touches ht hid
      rw [ht2t] at ht2
      have := (List.mem_filter.mp ht2).2
      rw [hout] at this
      cases this
/-- Witness for C2: one in-bounds and one control-strip touch on the
empty registry register exactly one contact. -/
theorem grant_registry_witness :
    initialState.selecting = false ∧ initialState.fingers = [] ∧
    (onPanResponderGrant sampleDims [sampleTouchA, sampleTouchOut] initialState).fingers.length
      = (validTouches sampleDims [sampleTouchA, sampleTouchOut]).length := by
  have h := grant_registry_spec sampleDims [sampleTouchA, sampleTouchOut] initialState rfl
  exact ⟨rfl, rfl, (h.2.2.2.2.2.1 rfl).2⟩

/-- Claim C10 (amended: only while no selection session is active; a
mid-session start batch is ignored): an in-bounds touch-start overwrites the color-map entry of
its identifier with the idle color, so its border derivation returns the
plain white border even when the identifier previously carried the winner
color (which renders the accent border). -/
theorem grant_resets_color (d : GameAreaDimensions) (touches : List Touch)
    (s : GameState) (t : Touch)
    (hsel : s.selecting = false)
    (ht : t ∈ touches)
    (hin : isTouchInGameArea d t.pageX t.pageY = true)
    (hnd : (touches.map (fun t2 => toString t2.identifier)).Nodup) :
    (onPanResponderGrant d touches s).fingerColors (toString t.identifier)
        = some "#00a2ff" ∧
    getBorderColor (onPanResponderGrant d touches s).fingerColors
        (toString t.identifier) = "white" ∧
    (s.fingerColors (toString t.identifier) = some "#ff2d55" →
        getBorderColor s.fingerColors (toString t.identifier) = "#ffcc00") := by
  have hvalid : t ∈ validTouches d touches := by
    unfold validTouches
    exact List.mem_filter.mpr ⟨ht, hin⟩
  have hcolors : (onPanResponderGrant d touches s).fingerColors
      = applyUpdates s.fingerColors
          ((validTouches d touches).map (fun t2 => (toString t2.identifier, "#00a2ff"))) := by
    unfold onPanResponderGrant
    rw [if_neg (by simp [hsel])]
  have hndkeys : ((((validTouches d touches).map
      (fun t2 => (toString t2.identifier, "#00a2ff")))).map Prod.fst).Nodup := by
    rw [List.map_map]
    have hcomp : (Prod.fst ∘ fun t2 : Touch => (toString t2.identifier, "#00a2ff"))
        = fun t2 : Touch => toString t2.identifier := rfl
    rw [hcomp]
    exact List.Nodup.sublist (List.Sublist.map _ (List.filter_sublist touches)) hnd
  have h1 : applyUpdates s.fingerColors
      ((validTouches d touches).map (fun t2 => (toString t2.identifier, "#00a2ff")))
      (toString t.identifier) = some "#00a2ff" :=
    applyUpdates_mem _ _ _ _ hndkeys (List.mem_map_of_mem _ hvalid)
  refine ⟨by rw [hcolors]; exact h1, ?_, ?_⟩
  · unfold getBorderColor
    rw [hcolors, h1]
    simp
  · intro hw
    unfold getBorderColor
    rw [hw]
    simp

/-- Witness for C10: re-registering identifier 7, previously colored as
winner, turns its border from the accent color back to white. -/
theorem grant_resets_color_witness :
    formerWinnerState.selecting = false ∧
    sampleTouchIn ∈ [sampleTouchIn] ∧
    isTouchInGameArea sampleDims sampleTouchIn.pageX sampleTouchIn.pageY = true ∧
    ([sampleTouchIn].map (fun t2 => toString t2.identifier)).Nodup ∧
    (onPanResponderGrant sampleDims [sampleTouchIn] formerWinnerState).fingerColors
        (toString sampleTouchIn.identifier) = some "#00a2ff" ∧
    getBorderColor (onPanResponderGrant sampleDims [sampleTouchIn]
        formerWinnerState).fingerColors (toString sampleTouchIn.identifier) = "white" ∧
    getBorderColor formerWinnerState.fingerColors (toString sampleTouchIn.identifier)
      = "#ffcc00" := by
  have hin : isTouchInGameArea sampleDims sampleTouchIn.pageX sampleTouchIn.pageY = true := by
    norm_num [isTouchInGameArea, sampleDims, sampleTouchIn]
  have h := grant_resets_color sampleDims [sampleTouchIn] formerWinnerState sampleTouchIn
    rfl (by decide) hin (by decide)
  refine ⟨rfl, by decide, hin, by decide, h.1, h.2.1, h.2.2 ?_⟩
  show setColor emptyColors "7" "#ff2d55" (toString sampleTouchIn.identifier) = some "#ff2d55"
  rfl

/-- Counterexample to C2 as stated: an in-bounds touch-start delivered
while a selection session is active creates no registry entry at all. -/
theorem grant_mid_session_counterexample :
    isTouchInGameArea sampleDims sampleTouchA.pageX sampleTouchA.pageY = true ∧
    onPanResponderGrant sampleDims [sampleTouchA] midSessionState = midSessionState ∧
    (mkFinger sampleTouchA).id
      ∉ (onPanResponderGrant sampleDims [sampleTouchA] midSessionState).fingers.map
          Finger.id := by
  have hgrant : onPanResponderGrant sampleDims [sampleTouchA] midSessionState
      = midSessionState := by
    unfold onPanResponderGrant
    rw [if_pos (show midSessionState.selecting = true from rfl)]
  refine ⟨by norm_num [isTouchInGameArea, sampleDims, sampleTouchA], hgrant, ?_⟩
  rw [hgrant]
  decide

/-- Counterexample to C10 as stated: an in-bounds touch-start delivered
while a selection session is active does not write the idle color, so a
former winner's identifier keeps the winner color and accent border. -/
theorem grant_color_mid_session_counterexample :
    isTouchInGameArea sampleDims sampleTouchA.pageX sampleTouchA.pageY = true ∧
    (onPanResponderGrant sampleDims [sampleTouchA] midSessionWinnerState).fingerColors
        (toString sampleTouchA.identifier) = some "#ff2d55" ∧
    (onPanResponderGrant sampleDims [sampleTouchA] midSessionWinnerState).fingerColors
        (toString sampleTouchA.identifier) ≠ some "#00a2ff" ∧
    getBorderColor (onPanResponderGrant sampleDims [sampleTouchA]
        midSessionWinnerState).fingerColors (toString sampleTouchA.identifier)
      = "#ffcc00" := by
  have hgrant : onPanResponderGrant sampleDims [sampleTouchA] midSessionWinnerState
      = midSessionWinnerState := by
    unfold onPanResponderGrant
    rw [if_pos (show midSessionWinnerState.selecting = true from rfl)]
  refine ⟨by norm_num [isTouchInGameArea, sampleDims, sampleTouchA], ?_, ?_, ?_⟩
  · rw [hgrant]
    rfl
  · rw [hgrant]
    decide
  · rw [hgrant]
    rfl
